import Mathlib

/-!
Verification development for the ollama client repository
(src/api/ollamaClient.ts: classes OllamaClient and AIService,
src/config.ts defaults, src/types/ollama.ts shapes).

Text is modelled as `List Char`, bytes as `Nat` below 256.  The platform
function `JSON.parse` is modelled by an executable recursive-descent parser
over a JSON value type; numbers are restricted to optional-sign integer
literals and string escapes to the single-character ones, which covers every
value form this development evaluates (unsupported forms simply fail to
parse, as unparseable text does in the source's try/catch).
-/

/-- Whitespace as trimmed by JavaScript `String.prototype.trim` (ASCII part). -/
def wsChar (c : Char) : Bool :=
  c = ' ' || c = '\t' || c = '\n' || c = '\r' || c = '\x0b' || c = '\x0c'

/-- Left trim. -/
def trimL (l : List Char) : List Char := l.dropWhile wsChar

/-- Right trim. -/
def trimR (l : List Char) : List Char := (trimL l.reverse).reverse

/-- Model of JavaScript `String.prototype.trim`. -/
def jsTrim (l : List Char) : List Char := trimR (trimL l)

theorem dropWhile_dropWhile_eq (p : α → Bool) (l : List α) :
    (l.dropWhile p).dropWhile p = l.dropWhile p := by
  induction l with
  | nil => rfl
  | cons a t ih =>
    by_cases h : p a
    · simpa [List.dropWhile, h] using ih
    · simp [List.dropWhile, h]

theorem trimL_trimL (l : List Char) : trimL (trimL l) = trimL l :=
  dropWhile_dropWhile_eq wsChar l

theorem trimR_trimR (l : List Char) : trimR (trimR l) = trimR l := by
  simp [trimR, trimL_trimL]

/-- The head of a left-trimmed list is never whitespace. -/
theorem trimL_head (l : List Char) :
    trimL l = [] ∨ ∃ c t, trimL l = c :: t ∧ wsChar c = false := by
  induction l with
  | nil => exact Or.inl rfl
  | cons a t ih =>
    by_cases h : wsChar a
    · simpa [trimL, List.dropWhile, h] using ih
    · exact Or.inr ⟨a, t, by simp [trimL, List.dropWhile, h], by simpa using h⟩

/-- Right-trimming keeps a non-whitespace head in place. -/
theorem trimR_cons_head (c : Char) (t : List Char) (hc : wsChar c = false) :
    ∃ t2, trimR (c :: t) = c :: t2 := by
  unfold trimR trimL
  rcases h : (c :: t).reverse.dropWhile wsChar with _ | ⟨a, r⟩
  · exfalso
    have hall := (List.dropWhile_eq_nil_iff).1 h
    have : wsChar c = true := by
      have hc' : c ∈ (c :: t).reverse := by simp
      exact hall c hc'
    simp [hc] at this
  · -- the dropped list is a nonempty suffix of the reverse, whose last element is c
    have hsuff : a :: r <:+ (c :: t).reverse := by
      rw [← h]; exact List.dropWhile_suffix wsChar
    rcases hsuff with ⟨pre, hpre⟩
    have hlast : (a :: r).getLast? = some c := by
      have hlast0 : (pre ++ (a :: r)).getLast? = some c := by
        rw [hpre]; simp
      rw [List.getLast?_append_of_ne_nil pre (by simp)] at hlast0
      exact hlast0
    have hh : ((a :: r).reverse).head? = some c := by
      rw [List.head?_reverse]; exact hlast
    rcases hrev : (a :: r).reverse with _ | ⟨x, xs⟩
    · rw [hrev] at hh; simp at hh
    · rw [hrev] at hh
      simp only [List.head?_cons, Option.some.injEq] at hh
      exact ⟨xs, by rw [hh]⟩

/-- `jsTrim` is idempotent. -/
theorem jsTrim_idem (l : List Char) : jsTrim (jsTrim l) = jsTrim l := by
  unfold jsTrim
  rcases trimL_head l with h | ⟨c, t, h, hc⟩
  · rw [h]; rfl
  · rw [h]
    rcases trimR_cons_head c t hc with ⟨t2, h2⟩
    rw [h2]
    have h3 : trimL (c :: t2) = c :: t2 := by
      simp [trimL, List.dropWhile, hc]
    rw [h3, ← h2, trimR_trimR]

/-- JSON value model for results of the platform function `JSON.parse`. -/
inductive Json where
  | null : Json
  | bool (b : Bool) : Json
  | num (n : Int) : Json
  | str (s : List Char) : Json
  | arr (xs : List Json) : Json
  | obj (kvs : List (String × Json)) : Json

/-- JavaScript property read on a parsed object: with duplicate keys, the
last occurrence wins (as in `JSON.parse`). -/
def jsGet (k : String) : List (String × Json) → Option Json
  | [] => none
  | (k2, v) :: rest =>
    match jsGet k rest with
    | some w => some w
    | none => if k2 = k then some v else none

/-- Property access `x.k` on an arbitrary parsed value: `undefined` (none)
unless `x` is an object with the property. -/
def jsProp (k : String) : Json → Option Json
  | .obj kvs => jsGet k kvs
  | _ => none

/-- Whitespace accepted by the JSON grammar. -/
def jsonWs (c : Char) : Bool := c = ' ' || c = '\t' || c = '\n' || c = '\r'

def skipWs (l : List Char) : List Char := l.dropWhile jsonWs

/-- Single-character string escapes of JSON. -/
def escChar : Char → Option Char
  | '\x22' => some '\x22'
  | '\\' => some '\\'
  | '/' => some '/'
  | 'b' => some '\x08'
  | 'f' => some '\x0c'
  | 'n' => some '\n'
  | 'r' => some '\r'
  | 't' => some '\t'
  | _ => none

/-- Parse the body of a JSON string literal (after the opening quote),
returning the content and the rest after the closing quote. -/
def parseStr : List Char → Option (List Char × List Char)
  | [] => none
  | c :: rest =>
    if c = '\x22' then some ([], rest)
    else if c = '\\' then
      match rest with
      | [] => none
      | e :: rest2 =>
        match escChar e with
        | some ec =>
          match parseStr rest2 with
          | some (s, r) => some (ec :: s, r)
          | none => none
        | none => none
    else if c.toNat < 32 then none
    else
      match parseStr rest with
      | some (s, r) => some (c :: s, r)
      | none => none

def digitVal (c : Char) : Nat := c.toNat - 48

def takeDigits (l : List Char) : List Char × List Char :=
  (l.takeWhile Char.isDigit, l.dropWhile Char.isDigit)

def natOfDigits (ds : List Char) : Nat :=
  ds.foldl (fun acc c => acc * 10 + digitVal c) 0

mutual

/-- Recursive-descent model of `JSON.parse` (value level), with fuel. -/
def parseVal : Nat → List Char → Option (Json × List Char)
  | 0, _ => none
  | fuel + 1, input =>
    let cs := skipWs input
    if ("null").toList.isPrefixOf cs then some (.null, cs.drop 4)
    else if ("true").toList.isPrefixOf cs then some (.bool true, cs.drop 4)
    else if ("false").toList.isPrefixOf cs then some (.bool false, cs.drop 5)
    else
      match cs with
      | [] => none
      | c :: rest =>
        if c = '\x22' then
          match parseStr rest with
          | some (s, r) => some (.str s, r)
          | none => none
        else if c = '-' then
          match takeDigits rest with
          | ([], _) => none
          | (ds, r) => some (.num (-(natOfDigits ds : Int)), r)
        else if c.isDigit then
          match takeDigits (c :: rest) with
          | (ds, r) => some (.num (natOfDigits ds : Int), r)
        else if c = '\x7b' then
          let cs2 := skipWs rest
          match cs2 with
          | '\x7d' :: r => some (.obj [], r)
          | _ => parseMembers fuel cs2
        else if c = '[' then
          let cs2 := skipWs rest
          match cs2 with
          | ']' :: r => some (.arr [], r)
          | _ => parseItems fuel cs2
        else none

/-- Parse one or more `"key": value` members and the closing brace. -/
def parseMembers : Nat → List Char → Option (Json × List Char)
  | 0, _ => none
  | fuel + 1, input =>
    match skipWs input with
    | '\x22' :: rest =>
      match parseStr rest with
      | some (k, r1) =>
        match skipWs r1 with
        | ':' :: r2 =>
          match parseVal fuel r2 with
          | some (v, r3) =>
            (match skipWs r3 with
             | ',' :: r4 =>
               match parseMembers fuel r4 with
               | some (.obj kvs, r5) => some (.obj ((String.mk k, v) :: kvs), r5)
               | _ => none
             | '\x7d' :: r4 => some (.obj [(String.mk k, v)], r4)
             | _ => none)
          | none => none
        | _ => none
      | none => none
    | _ => none

/-- Parse one or more array items and the closing bracket. -/
def parseItems : Nat → List Char → Option (Json × List Char)
  | 0, _ => none
  | fuel + 1, input =>
    match parseVal fuel input with
    | some (v, r1) =>
      (match skipWs r1 with
       | ',' :: r2 =>
         match parseItems fuel r2 with
         | some (.arr xs, r3) => some (.arr (v :: xs), r3)
         | _ => none
       | ']' :: r2 => some (.arr [v], r2)
       | _ => none)
    | none => none

end

/-- Model of `JSON.parse`: one JSON value, then only whitespace. Any
failure is `none` (the callers wrap the call in try/catch). -/
def jsonParse (cs : List Char) : Option Json :=
  match parseVal (cs.length + 1) cs with
  | some (v, rest) => if skipWs rest = [] then some v else none
  | none => none

/-!
Transport Executor: `OllamaClient.post` (ollamaClient.ts lines 87-146).

One call is modelled against an environment `outcomes : Nat → FetchOutcome`
giving, for each attempt number (1-based, as the source's `attempt` counter),
what that attempt's `fetch`/`response` produced.  The configured values come
from `config.ollama` (config.ts); `retryAttempts` is an `Int` because it is
read with `parseInt` and may be zero or negative.
-/

/-- Endpoint configuration (config.ts, `config.ollama`). -/
structure OllamaConfig where
  timeoutMs : Nat
  retryAttempts : Int
  retryDelayMs : Nat

/-- Defaults from config.ts when no environment override is present. -/
def defaultOllamaConfig : OllamaConfig :=
  { timeoutMs := 30000, retryAttempts := 3, retryDelayMs := 1000 }

/-- What one attempt's HTTP exchange produced, as seen by `post`. -/
inductive FetchOutcome where
  /-- `fetch` (or `response.text()`/`response.json()`) rejected: network
  failure or the timeout abort. The string is the rejection's message. -/
  | netErr (msg : List Char) : FetchOutcome
  /-- `response.ok` was false; carries status and body text. -/
  | httpErr (status : Nat) (text : List Char) : FetchOutcome
  /-- `response.ok` was true and `response.json()` yielded this value. -/
  | body (v : Json) : FetchOutcome

/-- Type guard `isErrorResponse` (ollamaClient.ts lines 23-30): the value is
an object whose `error` property is a string. -/
def isErrorResponse : Json → Bool
  | .obj kvs =>
    match jsGet "error" kvs with
    | some (.str _) => true
    | _ => false
  | _ => false

/-- The `error` string of an error-shaped body (`result.error`). -/
def errMsg : Json → List Char
  | .obj kvs =>
    match jsGet "error" kvs with
    | some (.str s) => s
    | _ => []
  | _ => []

/-- The error thrown (or value returned) by the body of one attempt of
`post`, before the catch block's wrapping. -/
inductive AttemptError where
  /-- an `OllamaAPIError` thrown at lines 113 or 120 -/
  | apiErr (msg : List Char) (status : Option Nat) : AttemptError
  /-- any other exception (a `fetch` rejection etc.) -/
  | thrown (msg : List Char) : AttemptError

/-- Error surfaced by `post` to its caller. -/
inductive PostError where
  /-- `OllamaAPIError` -/
  | api (msg : List Char) (status : Option Nat) : PostError
  /-- `OllamaNetworkError` (also an `OllamaAPIError` by inheritance) -/
  | network (msg : List Char) : PostError

/-- The try-block of one attempt (lines 93-123): non-ok status throws an
`OllamaAPIError` with the body text; an ok status whose JSON body is
error-shaped throws an `OllamaAPIError` with the body's error string;
otherwise the parsed body is returned. -/
def runAttempt : FetchOutcome → Except AttemptError Json
  | .netErr m => .error (.thrown m)
  | .httpErr status text =>
    .error (.apiErr (("API error: ").toList ++ text) (some status))
  | .body v =>
    if isErrorResponse v then
      .error (.apiErr (("API returned error: ").toList ++ errMsg v) none)
    else
      .ok v

/-- The final-attempt wrapping in the catch block (lines 126-135): an
`OllamaAPIError` is rethrown as is, anything else is wrapped in an
`OllamaNetworkError`. -/
def wrapFinal : AttemptError → PostError
  | .apiErr m s => .api m s
  | .thrown m => .network (("Network error: ").toList ++ m)

/-- The retry loop of `post` (lines 91-142), entered with counter value
`attempt`.  Returns the number of `fetch` calls performed, the list of
delays awaited between attempts, and `some` result when the loop ends by
`return` or `throw` — `none` means the loop was exited by its condition
(falling through to line 145). -/
def postLoop (ra : Int) (delayMs : Nat) (outcomes : Nat → FetchOutcome)
    (attempt : Nat) : Nat × List Nat × Option (Except PostError Json) :=
  if _h : (attempt : Int) < ra then
    let a := attempt + 1
    match runAttempt (outcomes a) with
    | .ok v => (1, [], some (.ok v))
    | .error e =>
      if ra ≤ (a : Int) then
        (1, [], some (.error (wrapFinal e)))
      else
        let r := postLoop ra delayMs outcomes a
        (r.1 + 1, delayMs :: r.2.1, r.2.2)
  else (0, [], none)
termination_by (ra - (attempt : Int)).toNat
decreasing_by
  simp only [not_le] at *
  omega

/-- `OllamaClient.post` (lines 87-146): the loop, then the fall-through
`throw new OllamaAPIError('Maximum retry attempts reached')`. -/
def post (cfg : OllamaConfig) (outcomes : Nat → FetchOutcome) :
    Nat × List Nat × Except PostError Json :=
  let r := postLoop cfg.retryAttempts cfg.retryDelayMs outcomes 0
  (r.1, r.2.1,
    r.2.2.getD (.error (.api ("Maximum retry attempts reached").toList none)))

/-- The per-attempt deadline armed by `post` (lines 96-97:
`setTimeout(() => controller.abort(), this.timeoutMs)`). -/
def postAttemptTimeout (cfg : OllamaConfig) : Option Nat := some cfg.timeoutMs

/-!
Streaming Ingester: `OllamaClient.stream` (ollamaClient.ts lines 156-252).

The `TextDecoder` created at line 189 and fed with `stream: true` at line 214
is modelled as a byte-at-a-time WHATWG utf-8 decoder whose state is the list
of bytes of the currently incomplete sequence.  The line processing of lines
216-230 and the end-of-stream flush of lines 195-210 are modelled over the
decoded text.
-/

/-- Number of bytes of the utf-8 sequence introduced by a lead byte
(0 for a byte that cannot begin a sequence). -/
def needBytes (b : Nat) : Nat :=
  if b < 128 then 1
  else if b < 194 then 0
  else if b < 224 then 2
  else if b < 240 then 3
  else if b < 245 then 4
  else 0

/-- WHATWG lower boundary for the next continuation byte: tightened after
lead bytes 0xE0 and 0xF0 (to exclude overlong forms). `seen` is the number
of continuation bytes already consumed. -/
def contLo (lead seen : Nat) : Nat :=
  if seen = 0 then (if lead = 224 then 160 else if lead = 240 then 144 else 128)
  else 128

/-- WHATWG upper boundary for the next continuation byte: tightened after
lead bytes 0xED (surrogates) and 0xF4 (above U+10FFFF). -/
def contHi (lead seen : Nat) : Nat :=
  if seen = 0 then (if lead = 237 then 159 else if lead = 244 then 143 else 191)
  else 191

def leadVal (b n : Nat) : Nat :=
  if n = 2 then b - 192 else if n = 3 then b - 224 else b - 240

def contsVal : List Nat → Nat
  | [] => 0
  | b :: t => (b - 128) * 64 ^ t.length + contsVal t

/-- The code point of a complete sequence (lead byte plus continuations). -/
def seqVal (lead : Nat) (conts : List Nat) : Nat :=
  leadVal lead (conts.length + 1) * 64 ^ conts.length + contsVal conts

/-- U+FFFD replacement character. -/
def repl : Char := Char.ofNat 65533

/-- Feed one byte to the decoder.  The state is the pending incomplete
sequence (empty, or a lead byte plus the valid continuations seen so far).
Returns the characters emitted and the new state. -/
def feedByte : List Nat → Nat → List Char × List Nat
  | [], b =>
    let n := needBytes b
    if n = 1 then ([Char.ofNat b], [])
    else if n = 0 then ([repl], [])
    else ([], [b])
  | lead :: conts, b =>
    if contLo lead conts.length ≤ b ∧ b ≤ contHi lead conts.length then
      if conts.length + 2 = needBytes lead then
        ([Char.ofNat (seqVal lead (conts ++ [b]))], [])
      else ([], lead :: (conts ++ [b]))
    else
      -- broken sequence: one replacement, then the byte is reprocessed fresh
      let n := needBytes b
      if n = 1 then ([repl, Char.ofNat b], [])
      else if n = 0 then ([repl, repl], [])
      else ([repl], [b])

/-- `decoder.decode(value, \{stream: true\})`: feed a chunk of bytes,
carrying the pending state across chunks. -/
def feedChunk (st : List Nat) (chunk : List Nat) : List Char × List Nat :=
  chunk.foldl (fun acc b =>
    let r := feedByte acc.2 b
    (acc.1 ++ r.1, r.2)) ([], st)

/-- Split a text into the complete (newline-terminated) lines and the
remainder after the last newline, as the `indexOf('\n')` loop of lines
217-230 does. -/
def lineSplit : List Char → List (List Char) × List Char
  | [] => ([], [])
  | c :: cs =>
    let r := lineSplit cs
    if c = '\n' then ([] :: r.1, r.2)
    else
      match r with
      | ([], rem) => ([], c :: rem)
      | (l :: ls, rem) => ((c :: l) :: ls, rem)

/-- Lines 222-229: each complete line is trimmed; empty lines are skipped;
each remaining line is parsed, a parse failure being logged and the line
discarded. -/
def emitLines {R : Type} (parse : List Char → Option R) (ls : List (List Char)) : List R :=
  ls.filterMap (fun l => if jsTrim l = [] then none else parse (jsTrim l))

/-- Per-session mutable state of the read loop: decoder state, the string
`buffer`, and the records emitted so far. -/
structure StreamState (R : Type) where
  pending : List Nat
  buffer : List Char
  emitted : List R

/-- One iteration of the read loop for a delivered chunk `value`
(lines 213-230): decode, append to the buffer, split off and process every
complete line. -/
def processChunk {R : Type} (parse : List Char → Option R)
    (s : StreamState R) (chunk : List Nat) : StreamState R :=
  let d := feedChunk s.pending chunk
  let buf := s.buffer ++ d.1
  let sp := lineSplit buf
  { pending := d.2, buffer := sp.2, emitted := s.emitted ++ emitLines parse sp.1 }

/-- The `done` branch (lines 195-204): one final parse attempt on a
non-blank residue, with the same discard-on-failure rule.  Note the source
checks `buffer.trim()` but parses the untrimmed `buffer`. -/
def flushResidue {R : Type} (parse : List Char → Option R) (s : StreamState R) : List R :=
  s.emitted ++ (if jsTrim s.buffer = [] then [] else (parse s.buffer).toList)

/-- The records the read-loop body delivers via `onChunk` for a byte stream
delivered as the given chunks. -/
def streamBodyRun {R : Type} (parse : List Char → Option R)
    (chunks : List (List Nat)) : List R :=
  flushResidue parse (chunks.foldl (processChunk parse) ⟨[], [], []⟩)

/-- The fold step of `feedChunk`. -/
def feedStep (acc : List Char × List Nat) (b : Nat) : List Char × List Nat :=
  let r := feedByte acc.2 b
  (acc.1 ++ r.1, r.2)

theorem feedChunk_eq_foldl (st chunk : List Nat) :
    feedChunk st chunk = chunk.foldl feedStep ([], st) := rfl

theorem foldl_feedStep_out (chunk : List Nat) :
    ∀ (o : List Char) (st : List Nat),
      chunk.foldl feedStep (o, st) =
        ((o ++ (chunk.foldl feedStep ([], st)).1, (chunk.foldl feedStep ([], st)).2)) := by
  induction chunk with
  | nil => intro o st; simp
  | cons b t ih =>
    intro o st
    simp only [List.foldl_cons]
    rw [ih ((feedStep (o, st) b).1) ((feedStep (o, st) b).2),
        ih ((feedStep ([], st) b).1) ((feedStep ([], st) b).2)]
    simp [feedStep]

/-- Decoding is compositional: feeding `c1 ++ c2` equals feeding `c1`, then
feeding `c2` from the carried state. -/
theorem feedChunk_append (st c1 c2 : List Nat) :
    feedChunk st (c1 ++ c2) =
      ((feedChunk st c1).1 ++ (feedChunk (feedChunk st c1).2 c2).1,
        (feedChunk (feedChunk st c1).2 c2).2) := by
  simp only [feedChunk_eq_foldl, List.foldl_append]
  rw [foldl_feedStep_out c2 ((c1.foldl feedStep ([], st)).1) ((c1.foldl feedStep ([], st)).2)]

/-- Line splitting is compositional: the complete lines of `x ++ y` are the
complete lines of `x` followed by those of `x`'s remainder prepended to `y`. -/
theorem lineSplit_append (x y : List Char) :
    lineSplit (x ++ y) =
      ((lineSplit x).1 ++ (lineSplit ((lineSplit x).2 ++ y)).1,
        (lineSplit ((lineSplit x).2 ++ y)).2) := by
  induction x with
  | nil => simp [lineSplit]
  | cons c x' ih =>
    by_cases hc : c = '\n'
    · subst hc
      simp [lineSplit, ih]
    · rcases hx : lineSplit x' with ⟨ls, rem⟩
      simp only [hx] at ih
      rcases ls with _ | ⟨l, ls'⟩
      · simp only [List.nil_append] at ih
        rcases hy : lineSplit (rem ++ y) with ⟨ls2, rem2⟩
        simp only [hy] at ih
        rcases ls2 with _ | ⟨l2, ls2'⟩
        · simp [lineSplit, if_neg hc, ih, hx, hy]
        · simp [lineSplit, if_neg hc, ih, hx, hy]
      · rcases hy : lineSplit (rem ++ y) with ⟨ls2, rem2⟩
        simp only [hy] at ih
        simp [lineSplit, if_neg hc, ih, hx, hy]

theorem emitLines_append {R : Type} (parse : List Char → Option R)
    (a b : List (List Char)) :
    emitLines parse (a ++ b) = emitLines parse a ++ emitLines parse b := by
  simp [emitLines]

/-- Processing two chunks in sequence is processing their concatenation. -/
theorem processChunk_comp {R : Type} (parse : List Char → Option R)
    (s : StreamState R) (a b : List Nat) :
    processChunk parse (processChunk parse s a) b = processChunk parse s (a ++ b) := by
  unfold processChunk
  simp only [feedChunk_append]
  rw [← List.append_assoc s.buffer]
  rw [lineSplit_append (s.buffer ++ (feedChunk s.pending a).1)]
  simp [emitLines_append, List.append_assoc]

theorem foldl_processChunk_join {R : Type} (parse : List Char → Option R)
    (s : StreamState R) (a : List Nat) (chunks : List (List Nat)) :
    (a :: chunks).foldl (processChunk parse) s = processChunk parse s (a :: chunks).flatten := by
  induction chunks generalizing s a with
  | nil => simp
  | cons b t ih =>
    have h1 : (a :: b :: t).foldl (processChunk parse) s =
        (b :: t).foldl (processChunk parse) (processChunk parse s a) := rfl
    rw [h1, ih (processChunk parse s a) b]
    rw [processChunk_comp]
    simp

/-- Reassembly canonicality for the read-loop body: the records delivered
depend only on the full byte payload, not on how the transport chunked it. -/
theorem streamBodyRun_canonical {R : Type} (parse : List Char → Option R)
    (c1 c2 : List (List Nat)) (h : c1.flatten = c2.flatten) :
    streamBodyRun parse c1 = streamBodyRun parse c2 := by
  have single : ∀ c : List (List Nat), streamBodyRun parse c = streamBodyRun parse [c.flatten] := by
    intro c
    rcases c with _ | ⟨a, t⟩
    · rfl
    · unfold streamBodyRun
      rw [foldl_processChunk_join parse ⟨[], [], []⟩ a t]
      have h2 : ([(a :: t).flatten]).foldl (processChunk parse) (⟨[], [], []⟩ : StreamState R) =
          processChunk parse ⟨[], [], []⟩ (a :: t).flatten := rfl
      rw [h2]
  rw [single c1, single c2, h]

/-!
The whole streaming session (lines 167-252).

The read loop is `while (!reader.closed)`.  In the Web Streams API consumed
here, `reader.closed` is a Promise object, and any object is truthy in
JavaScript, so the guard `!reader.closed` evaluates to `false` on every
check.  The repository's own unit test exercises the loop only through a
mock whose `closed` field is the boolean `false`.  Both readings are kept:
`readerClosedTruthy` records the platform value's truthiness, and the loop
body's effect is `streamBodyRun`.
-/

/-- JavaScript truthiness of the `reader.closed` value: it is a
`Promise<undefined>` object, and every object is truthy. -/
def readerClosedTruthy : Bool := true

/-- The guard `!reader.closed` of the read loop (line 192). -/
def streamLoopEntered : Bool := !readerClosedTruthy

/-- How the initial HTTP exchange of a session ended. -/
inductive StreamFetch where
  /-- `fetch` resolved with an ok status and a body that delivers these
  chunks and then reports done. -/
  | ok (chunks : List (List Nat)) : StreamFetch
  /-- `fetch` rejected, or the status was not ok, or the body was null:
  control reaches the catch block. -/
  | fail : StreamFetch

/-- Observable outcome of one streaming session. -/
structure SessionOut (R : Type) where
  emitted : List R
  doneCalls : Nat

/-- `OllamaClient.stream`'s inner async task (lines 167-245): on a fetch
failure the catch block runs `onDone` once; on success the read loop runs
only if its guard ever holds, and otherwise the task ends with no record
emitted and without calling `onDone`. -/
def streamSession {R : Type} (parse : List Char → Option R) :
    StreamFetch → SessionOut R
  | .fail => { emitted := [], doneCalls := 1 }
  | .ok chunks =>
    if streamLoopEntered then
      { emitted := streamBodyRun parse chunks, doneCalls := 1 }
    else
      { emitted := [], doneCalls := 0 }

/-- The deadline armed for the streaming request: `stream` creates an
`AbortController` (line 163) but never arms a timer on it — compare
`postAttemptTimeout`. -/
def streamConnectTimeout : Option Nat := none

/-- The deadline applied to each `reader.read()` call: none exists. -/
def streamChunkReadTimeout : Option Nat := none

/-!
Command Extractor: `AIService.extractStructuredData`
(ollamaClient.ts lines 428-440).

The source matches the regular expression
(three backticks)json([every char]*?)(three backticks)|(lbrace)[every char]*(rbrace)
against the text and, on a match, parses capture 1 if it is truthy
(non-empty) and otherwise the whole match, returning undefined on any
failure.  The model below reproduces the leftmost-position, first-
alternative-preferred, lazy/greedy semantics of that expression.
-/

/-- The literal `(three backticks)json` opening the first alternative. -/
def fenceTag : List Char := ("\x60\x60\x60json").toList

/-- The literal closing fence. -/
def fenceEnd : List Char := ("\x60\x60\x60").toList

/-- Index of the first occurrence of `pat` in `l`. -/
def findSub (pat : List Char) : List Char → Option Nat
  | [] => if pat = [] then some 0 else none
  | c :: rest =>
    if pat.isPrefixOf (c :: rest) then some 0
    else (findSub pat rest).map (· + 1)

/-- Index of the last occurrence of character `c` in `l`. -/
def lastIdxOf (c : Char) : List Char → Option Nat
  | [] => none
  | a :: rest =>
    match lastIdxOf c rest with
    | some j => some (j + 1)
    | none => if a = c then some 0 else none

/-- Index of the first occurrence of character `c` in `l`. -/
def firstIdxOf (c : Char) : List Char → Option Nat
  | [] => none
  | a :: rest =>
    if a = c then some 0 else (firstIdxOf c rest).map (· + 1)

/-- First alternative of the regex at the current position: the fenced tag,
a lazily matched body, and the closing fence.  Returns the whole match and
the capture. -/
def tryFence (cs : List Char) : Option (List Char × List Char) :=
  if fenceTag.isPrefixOf cs then
    let rest := cs.drop fenceTag.length
    match findSub fenceEnd rest with
    | some k => some (fenceTag ++ rest.take k ++ fenceEnd, rest.take k)
    | none => none
  else none

/-- Second alternative at the current position: an opening brace, a greedily
matched body, and a closing brace — i.e. everything up to the last closing
brace of the remaining text. -/
def tryBrace (cs : List Char) : Option (List Char) :=
  match cs with
  | c :: rest =>
    if c = '\x7b' then
      match lastIdxOf '\x7d' rest with
      | some j => some (c :: rest.take (j + 1))
      | none => none
    else none
  | [] => none

/-- Leftmost regex match: at each position try the fenced alternative, then
the brace alternative, then advance.  Returns the whole match and the
fenced capture when the first alternative matched. -/
def findMatch : List Char → Option (List Char × Option (List Char))
  | [] => none
  | c :: rest =>
    match tryFence (c :: rest) with
    | some (full, g) => some (full, some g)
    | none =>
      match tryBrace (c :: rest) with
      | some full => some (full, none)
      | none => findMatch rest

/-- `AIService.extractStructuredData`: regex match, then `JSON.parse` of the
trimmed capture (if truthy) or of the trimmed whole match, with any parse
failure caught and turned into undefined. -/
def extractStructuredData (response : List Char) : Option Json :=
  match findMatch response with
  | none => none
  | some (full, g) =>
    let jsonStr :=
      match g with
      | some g1 => if g1 = [] then jsTrim full else jsTrim g1
      | none => jsTrim full
    jsonParse jsonStr

/-- The span the brace fallback actually selects: from the first opening
brace of the text to the last closing brace, when the latter comes later. -/
def greedyBraceSpan (cs : List Char) : Option (List Char) :=
  match firstIdxOf '\x7b' cs, lastIdxOf '\x7d' cs with
  | some i, some j => if i < j then some ((cs.drop i).take (j - i + 1)) else none
  | _, _ => none

/-- Follows the spec's words (section 4.3): scan from the first opening
brace tracking string-literal state, escape state and nesting depth, and
return the first top-level brace-delimited span. -/
def spanScan : List Char → Nat → Bool → Bool → List Char → Option (List Char)
  | [], _, _, _, _ => none
  | c :: rest, depth, inStr, esc, acc =>
    if inStr then
      if esc then spanScan rest depth inStr false (c :: acc)
      else if c = '\\' then spanScan rest depth inStr true (c :: acc)
      else if c = '\x22' then spanScan rest depth false false (c :: acc)
      else spanScan rest depth inStr false (c :: acc)
    else if c = '\x22' then spanScan rest depth true false (c :: acc)
    else if c = '\x7b' then spanScan rest (depth + 1) inStr false (c :: acc)
    else if c = '\x7d' then
      if depth = 1 then some (c :: acc).reverse
      else spanScan rest (depth - 1) inStr false (c :: acc)
    else spanScan rest depth inStr false (c :: acc)

/-- Follows the spec's words: the first top-level brace-delimited span of
the text (tracking string-literal state and nesting depth), if any. -/
def specTopLevelSpan (cs : List Char) : Option (List Char) :=
  match firstIdxOf '\x7b' cs with
  | some i => spanScan (cs.drop i) 0 false false []
  | none => none

theorem option_map_eq_none {α β : Type} {x : Option α} {f : α → β}
    (h : x.map f = none) : x = none := by
  cases x with
  | none => rfl
  | some a => simp at h

/-- With no fenced tag anywhere in the text, the regex match is exactly the
greedy first-brace-to-last-brace span. -/
theorem findMatch_no_fence : ∀ cs : List Char, findSub fenceTag cs = none →
    findMatch cs = (greedyBraceSpan cs).map (fun s => (s, (none : Option (List Char)))) := by
  intro cs
  induction cs with
  | nil => intro _; rfl
  | cons c rest ih =>
    intro h
    have hpre : fenceTag.isPrefixOf (c :: rest) = false := by
      by_contra hx
      simp only [Bool.not_eq_false] at hx
      simp [findSub, hx] at h
    have hrest : findSub fenceTag rest = none := by
      simp only [findSub, hpre, Bool.false_eq_true, if_false] at h
      exact option_map_eq_none h
    have htf : tryFence (c :: rest) = none := by
      simp [tryFence, hpre]
    by_cases hc : c = '\x7b'
    · subst hc
      rcases hlast : lastIdxOf '\x7d' rest with _ | j
      · have htb : tryBrace ('\x7b' :: rest) = none := by
          simp [tryBrace, hlast]
        rcases hfst : firstIdxOf '\x7b' rest with _ | i
        all_goals
          simp [findMatch, htf, htb, ih hrest, greedyBraceSpan, firstIdxOf,
            lastIdxOf, hlast, hfst]
      · have htb : tryBrace ('\x7b' :: rest) = some ('\x7b' :: rest.take (j + 1)) := by
          simp [tryBrace, hlast]
        simp [findMatch, htf, htb, greedyBraceSpan, firstIdxOf, lastIdxOf, hlast]
    · have htb : tryBrace (c :: rest) = none := by
        simp [tryBrace, hc]
      have hfm : findMatch (c :: rest) = findMatch rest := by
        simp [findMatch, htf, htb]
      rw [hfm, ih hrest]
      rcases hfst : firstIdxOf '\x7b' rest with _ | i
      · rcases hlast : lastIdxOf '\x7d' rest with _ | j
        all_goals
          by_cases hcr : c = '\x7d'
        all_goals
          simp [greedyBraceSpan, firstIdxOf, lastIdxOf, hlast, hfst, hc, hcr]
      · rcases hlast : lastIdxOf '\x7d' rest with _ | j
        · by_cases hcr : c = '\x7d'
          all_goals
            simp [greedyBraceSpan, firstIdxOf, lastIdxOf, hlast, hfst, hc, hcr]
        · simp only [greedyBraceSpan, firstIdxOf, lastIdxOf, hlast, hfst, hc,
            if_neg hc, Option.map_some']
          by_cases hij : i < j
          · simp [hij, Nat.succ_lt_succ hij, List.drop_succ_cons,
              Nat.succ_sub_succ]
          · have h2 : ¬ (i + 1 < j + 1) := by omega
            simp [hij, h2]

/-- The fallback behaviour of `extractStructuredData` on fence-free text:
parse the trimmed greedy span from the first opening brace to the last
closing brace (absent if there is no such span). -/
theorem extractStructuredData_fallback (cs : List Char)
    (h : findSub fenceTag cs = none) :
    extractStructuredData cs =
      (greedyBraceSpan cs).bind (fun s => jsonParse (jsTrim s)) := by
  unfold extractStructuredData
  rw [findMatch_no_fence cs h]
  cases greedyBraceSpan cs with
  | none => rfl
  | some s => rfl

/-!
AI Orchestrator: `AIService` (aiService.ts part of ollamaClient.ts bundle,
lines 382-638): query preprocessing, tool-call extraction, and the
non-streaming `query` orchestration.
-/

/-- Character class of the source regex bare-domain parts: `[\w-]`,
i.e. ASCII letters, digits, underscore and hyphen. -/
def wordDash (c : Char) : Bool := c.isAlphanum || c = '_' || c = '-'

/-- Split on a character (every occurrence, keeping empty parts). -/
def splitOnChar (sep : Char) : List Char → List (List Char)
  | [] => [[]]
  | c :: rest =>
    let r := splitOnChar sep rest
    if c = sep then [] :: r
    else
      match r with
      | [] => [[c]]
      | p :: ps => (c :: p) :: ps

/-- The test of lines 471: `^[\w-]+(\.[\w-]+)+$` — at least two nonempty
dot-separated groups of word-or-hyphen characters. -/
def bareDomain (l : List Char) : Bool :=
  let parts := splitOnChar '.' l
  decide (2 ≤ parts.length) && parts.all (fun p => (!p.isEmpty) && p.all wordDash)

/-- ASCII lowercasing, modelling `toLowerCase` on the inputs involved. -/
def lowerAscii (l : List Char) : List Char := l.map Char.toLower

/-- Substring containment, modelling `String.prototype.includes`. -/
def containsSub (pat l : List Char) : Bool := (findSub pat l).isSome

/-- `includes('go to') || includes('navigate')` on the lowercased text. -/
def hasNavVerb (l : List Char) : Bool :=
  containsSub (("go to").toList) (lowerAscii l) || containsSub (("navigate").toList) (lowerAscii l)

/-- `AIService.preprocessQuery` (lines 466-486): trim; prefix a scheme onto
a bare domain; prefix `Navigate to ` when the text starts with `http` and
mentions no navigation verb. -/
def preprocessQuery (query : List Char) : List Char :=
  let p0 := jsTrim query
  let p1 := if bareDomain p0 then ("https://").toList ++ p0 else p0
  if ("http").toList.isPrefixOf p1 && !hasNavVerb p1 then
    ("Navigate to ").toList ++ p1
  else p1

/-- A tool call as built at lines 453-456: the (uncast) values of the
entry's `action` and `parameters` properties. -/
structure ToolCall where
  name : Option Json
  parameters : Option Json

/-- JavaScript truthiness of a parsed JSON value: `null`, `false`, `0` and
the empty string are falsy, every other parse result is truthy. -/
def jsTruthy : Json → Bool
  | .null => false
  | .bool b => b
  | .num n => decide (n ≠ 0)
  | .str s => decide (s ≠ [])
  | .arr _ => true
  | .obj _ => true

/-- Message of the TypeError thrown by a property read on `null` (the exact
text is platform-dependent; the model fixes one). -/
def nullReadMsg : List Char := ("Cannot read properties of null").toList

/-- Message of the TypeError thrown by the `in` operator applied to a
primitive (platform-dependent text, fixed by the model). -/
def inOpMsg : List Char := ("Cannot use in operator on a primitive").toList

/-- The arrow body of line 453-456 for one `browser_actions` entry: reading
`action.action` on a `null` entry throws a TypeError; on any other parsed
value the property reads yield the (possibly undefined) values. -/
def readToolCall : Json → Except (List Char) ToolCall
  | .null => .error nullReadMsg
  | a => .ok ⟨jsProp "action" a, jsProp "parameters" a⟩

/-- `Array.prototype.map` over the entries, stopping at the first throw. -/
def mapToolCalls : List Json → Except (List Char) (List ToolCall)
  | [] => .ok []
  | a :: rest =>
    match readToolCall a with
    | .error m => .error m
    | .ok t =>
      match mapToolCalls rest with
      | .error m => .error m
      | .ok ts => .ok (t :: ts)

/-- `AIService.extractToolCalls` (lines 447-459): undefined when the guard
`structuredData && ('browser_actions' in structuredData) && Array.isArray(...)`
fails; otherwise each entry maps to one tool call in source order.  The
call can throw: the `in` operator throws on a truthy primitive, and the
mapping throws on a `null` entry. -/
def extractToolCalls (structuredData : Json) :
    Except (List Char) (Option (List ToolCall)) :=
  if jsTruthy structuredData = false then .ok none
  else
    match structuredData with
    | .obj _ | .arr _ =>
      match jsProp "browser_actions" structuredData with
      | some (.arr actions) =>
        match mapToolCalls actions with
        | .error m => .error m
        | .ok ts => .ok (some ts)
      | _ => .ok none
    | _ => .error inOpMsg

/-- Chat message and response shapes (types/ollama.ts). -/
structure OllamaChatMessage where
  role : String
  content : List Char

structure OllamaChatResponse where
  done : Bool
  model : String
  created_at : String
  message : OllamaChatMessage

/-- Result value of `AIService.query` (interface AIQueryResponse). -/
structure AIQueryResponse where
  text : List Char
  structuredOutput : Option Json
  toolCalls : Option (List ToolCall)
  error : Option (List Char)

/-- How a `query` call's awaited `chat` may fail: the typed errors thrown
by `post`, or any other exception. -/
inductive QueryFailure where
  | api (msg : List Char) (status : Option Nat) : QueryFailure
  | network (msg : List Char) : QueryFailure
  | other (msg : List Char) : QueryFailure

/-- `error.message` of the caught value. -/
def failureMessage : QueryFailure → List Char
  | .api m _ => m
  | .network m => m
  | .other m => m

/-- `AIService.query` (lines 493-538) given the outcome of the awaited
`this.client.chat(...)` call: on success, extract structured data from the
message content and, when that value is truthy, extract tool calls — a
TypeError thrown there escapes the `try` and is caught as an unexpected
error; on a chat failure, catch it and return a generic message with the
error description. -/
def query (outcome : Except QueryFailure OllamaChatResponse) : AIQueryResponse :=
  match outcome with
  | .ok resp =>
    let responseText := resp.message.content
    match extractStructuredData responseText with
    | none =>
      { text := responseText, structuredOutput := none,
        toolCalls := none, error := none }
    | some so =>
      if jsTruthy so then
        match extractToolCalls so with
        | .ok tc =>
          { text := responseText, structuredOutput := some so,
            toolCalls := tc, error := none }
        | .error m =>
          -- the TypeError is not an OllamaAPIError: the catch block falls
          -- to its second branch
          { text := ("I encountered an unexpected error.").toList,
            structuredOutput := none, toolCalls := none, error := some m }
      else
        { text := responseText, structuredOutput := some so,
          toolCalls := none, error := none }
  | .error e =>
    match e with
    | .api m _ =>
      { text := ("I encountered an error communicating with my AI backend.").toList,
        structuredOutput := none, toolCalls := none, error := some m }
    | .network m =>
      { text := ("I encountered an error communicating with my AI backend.").toList,
        structuredOutput := none, toolCalls := none, error := some m }
    | .other m =>
      { text := ("I encountered an unexpected error.").toList,
        structuredOutput := none, toolCalls := none, error := some m }

/-- When every attempt fails, the loop entered at counter `attempt` with
`n` attempts left performs exactly `n` fetches, waits `n - 1` times, and
surfaces the wrapped error of the final attempt. -/
theorem postLoop_all_fail (ra : Int) (d : Nat) (out : Nat → FetchOutcome)
    (errs : Nat → AttemptError)
    (hf : ∀ i, runAttempt (out i) = .error (errs i)) :
    ∀ (n attempt : Nat), 1 ≤ n → ((attempt : Int) + (n : Int) = ra) →
      postLoop ra d out attempt =
        (n, List.replicate (n - 1) d, some (.error (wrapFinal (errs (attempt + n))))) := by
  intro n
  induction n with
  | zero => intro attempt h1 _; omega
  | succ m ih =>
    intro attempt h1 h2
    have hlt : (attempt : Int) < ra := by omega
    rw [postLoop, dif_pos hlt]
    simp only [hf (attempt + 1)]
    push_cast
    by_cases hm : m = 0
    · subst hm
      have hle : ra ≤ (attempt : Int) + 1 := by omega
      simp [hle]
    · have hnle : ¬ (ra ≤ (attempt : Int) + 1) := by omega
      rw [if_neg hnle]
      have ih2 := ih (attempt + 1) (by omega) (by push_cast at h2 ⊢; omega)
      rw [ih2]
      have hrep : d :: List.replicate (m - 1) d = List.replicate (m + 1 - 1) d := by
        have hm1 : m = (m - 1) + 1 := by omega
        conv_rhs => rw [Nat.add_sub_cancel, hm1]
        rfl
      have hidx : attempt + 1 + m = attempt + (m + 1) := by omega
      simp [hrep, hidx]

/-- As long as the loop condition holds, the loop ends in a `return` or a
`throw`, never by falling through. -/
theorem postLoop_isSome (ra : Int) (d : Nat) (out : Nat → FetchOutcome) :
    ∀ (fuel attempt : Nat), (ra - (attempt : Int)).toNat ≤ fuel → (attempt : Int) < ra →
      (postLoop ra d out attempt).2.2.isSome = true := by
  intro fuel
  induction fuel with
  | zero => intro attempt hle hlt; omega
  | succ f ih =>
    intro attempt hle hlt
    rw [postLoop, dif_pos hlt]
    cases hra : runAttempt (out (attempt + 1)) with
    | ok v => simp [hra]
    | error e =>
      simp only [hra]
      push_cast
      by_cases hle2 : ra ≤ (attempt : Int) + 1
      · simp [hle2]
      · rw [if_neg hle2]
        have h3 := ih (attempt + 1) (by push_cast; omega)
          (by push_cast; omega)
        simpa using h3

/-!
Claim theorems.
-/

/-- C4: for every configured attempt count N with N at least 1, a `post`
call whose every attempt fails performs exactly N outbound calls, waits the
configured delay between consecutive attempts (N - 1 waits), and surfaces
the final attempt's error, wrapped so that service-reported failures
(`OllamaAPIError`, constructor `api`) stay distinguishable from transport
failures (`OllamaNetworkError`, constructor `network`). -/
theorem c4_post_exhausts_attempts (cfg : OllamaConfig) (out : Nat → FetchOutcome)
    (errs : Nat → AttemptError) (N : Nat)
    (hN : (N : Int) = cfg.retryAttempts) (h1 : 1 ≤ N)
    (hf : ∀ i, runAttempt (out i) = .error (errs i)) :
    post cfg out =
      (N, List.replicate (N - 1) cfg.retryDelayMs, .error (wrapFinal (errs N)))
    ∧ (∀ (m m2 : List Char) (s : Option Nat),
        wrapFinal (.apiErr m s) ≠ wrapFinal (.thrown m2)) := by
  constructor
  · have h := postLoop_all_fail cfg.retryAttempts cfg.retryDelayMs out errs hf N 0 h1
      (by push_cast; omega)
    simp only [post, h]
    simp
  · intro m m2 s hEq
    simp [wrapFinal] at hEq

def c4Out : Nat → FetchOutcome := fun _ => .httpErr 500 ("boom").toList

def c4Errs : Nat → AttemptError :=
  fun _ => .apiErr (("API error: ").toList ++ ("boom").toList) (some 500)

/-- Witness for C4: with the default configuration (3 attempts, 1000 ms
delay) and a service fault on every attempt, exactly 3 calls, 2 waits, and
the final service fault. -/
theorem c4_witness :
    post defaultOllamaConfig c4Out =
      (3, List.replicate 2 1000, .error (wrapFinal (c4Errs 3))) :=
  (c4_post_exhausts_attempts defaultOllamaConfig c4Out c4Errs 3 rfl (by decide)
    (fun _ => rfl)).1

/-- C8: a response with a success HTTP status whose JSON body has the error
payload shape (an object with a string `error` property) is treated as a
failed attempt — the attempt throws an `OllamaAPIError` and never returns
the body as a success. -/
theorem c8_error_payload_is_failure (v : Json) (h : isErrorResponse v = true) :
    runAttempt (.body v) =
      .error (.apiErr (("API returned error: ").toList ++ errMsg v) none)
    ∧ ∀ w, runAttempt (.body v) ≠ .ok w := by
  refine ⟨by simp [runAttempt, h], ?_⟩
  intro w hw
  simp [runAttempt, h] at hw

def c8Body : Json := Json.obj [("error", Json.str ("model failure").toList)]

/-- Witness for C8 at a concrete error-shaped body. -/
theorem c8_witness :
    runAttempt (.body c8Body) =
      .error (.apiErr (("API returned error: ").toList ++ errMsg c8Body) none) :=
  (c8_error_payload_is_failure c8Body rfl).1

/-- C10: with at least one configured attempt the retry loop of `post`
always ends in a `return` or a `throw` — the fall-through
`Maximum retry attempts reached` throw after the loop is unreachable; with
a zero or negative configured attempt count, `post` throws exactly that
error having performed no network attempt. -/
theorem c10_fallthrough_unreachable (cfg : OllamaConfig) (out : Nat → FetchOutcome) :
    (1 ≤ cfg.retryAttempts →
      (postLoop cfg.retryAttempts cfg.retryDelayMs out 0).2.2.isSome = true)
    ∧ (cfg.retryAttempts ≤ 0 →
      post cfg out =
        (0, [], .error (.api ("Maximum retry attempts reached").toList none))) := by
  constructor
  · intro h
    exact postLoop_isSome cfg.retryAttempts cfg.retryDelayMs out
      ((cfg.retryAttempts - ((0 : Nat) : Int)).toNat) 0 (le_refl _) (by push_cast; omega)
  · intro h
    have hng : ¬ (((0 : Nat) : Int) < cfg.retryAttempts) := by push_cast; omega
    have hl : postLoop cfg.retryAttempts cfg.retryDelayMs out 0 = (0, [], none) := by
      rw [postLoop, dif_neg hng]
    simp [post, hl]

def c10Out : Nat → FetchOutcome := fun _ => .netErr ("refused").toList

def c10CfgNeg : OllamaConfig :=
  { timeoutMs := 30000, retryAttempts := -2, retryDelayMs := 1000 }

/-- Witness for C10: the loop result is present with the default 3 attempts,
and with a negative attempt count the call returns the fall-through error
with zero attempts. -/
theorem c10_witness :
    (postLoop defaultOllamaConfig.retryAttempts defaultOllamaConfig.retryDelayMs
        c10Out 0).2.2.isSome = true
    ∧ post c10CfgNeg c10Out =
        (0, [], .error (.api ("Maximum retry attempts reached").toList none)) :=
  ⟨(c10_fallthrough_unreachable defaultOllamaConfig c10Out).1 (by decide),
   (c10_fallthrough_unreachable c10CfgNeg c10Out).2 (by decide)⟩

def c6NullEntryContent : List Char := ("\x7b\"browser_actions\":[null]\x7d").toList

def c6NullEntryResp : OllamaChatResponse :=
  { done := true, model := "granite3.2-vision", created_at := "t",
    message := { role := "assistant", content := c6NullEntryContent } }

/-- C6: `AIService.query` always returns a well-formed result record and
never re-raises: every chat outcome yields either a result carrying the raw
text with `error` absent, or — when extraction itself throws, as on a
`null` entry of `browser_actions` — the caught-and-converted unexpected
error result; and every chat failure (typed API or network error, or any
other exception) is caught and converted into a result whose text is one of
the two generic user-facing messages and whose error field carries the
caught error's message.  The last conjunct evaluates the `null` entry case
concretely. -/
theorem c6_query_never_raises :
    (∀ resp : OllamaChatResponse,
      ((query (.ok resp)).text = resp.message.content ∧ (query (.ok resp)).error = none)
      ∨ ((query (.ok resp)).text = ("I encountered an unexpected error.").toList
         ∧ ∃ m, (query (.ok resp)).error = some m))
    ∧ (∀ f : QueryFailure,
        (query (.error f)).error = some (failureMessage f)
        ∧ ((query (.error f)).text =
              ("I encountered an error communicating with my AI backend.").toList
            ∨ (query (.error f)).text = ("I encountered an unexpected error.").toList)
        ∧ (query (.error f)).structuredOutput = none
        ∧ (query (.error f)).toolCalls = none)
    ∧ query (.ok c6NullEntryResp) =
        { text := ("I encountered an unexpected error.").toList,
          structuredOutput := none, toolCalls := none, error := some nullReadMsg } := by
  refine ⟨?_, ?_, rfl⟩
  · intro resp
    cases hso : extractStructuredData resp.message.content with
    | none => exact Or.inl ⟨by simp [query, hso], by simp [query, hso]⟩
    | some so =>
      by_cases ht : jsTruthy so = true
      · cases htc : extractToolCalls so with
        | ok tc =>
          exact Or.inl ⟨by simp [query, hso, ht, htc], by simp [query, hso, ht, htc]⟩
        | error m =>
          exact Or.inr ⟨by simp [query, hso, ht, htc], m, by simp [query, hso, ht, htc]⟩
      · exact Or.inl ⟨by simp [query, hso, ht], by simp [query, hso, ht]⟩
  · intro f
    cases f with
    | api m s => exact ⟨rfl, Or.inl rfl, rfl, rfl⟩
    | network m => exact ⟨rfl, Or.inl rfl, rfl, rfl⟩
    | other m => exact ⟨rfl, Or.inr rfl, rfl, rfl⟩

def c1Text : List Char := ("\x7b\"a\":1\x7d x \x7b\"b\":2\x7d").toList

/-- Counterexample to C1 as stated: on a fence-free text holding two
top-level objects, a scanner that tracks string state and nesting depth
selects the first span and parses it, while `extractStructuredData`'s
greedy regex takes everything up to the last closing brace and the parse
fails — the payload is mis-split and extraction returns nothing. -/
theorem c1_counterexample :
    (specTopLevelSpan c1Text).bind jsonParse = some (Json.obj [("a", Json.num 1)])
    ∧ extractStructuredData c1Text = none := ⟨rfl, rfl⟩

/-- C1 (amended): when no fenced tag occurs in the text, the fallback of
`extractStructuredData` selects the single greedy span from the first
opening brace to the last closing brace of the whole text — doing no
string-literal or nesting-depth tracking — and parses its trim; braces in
string literals or nested objects inside that span are preserved, but any
closing brace after the intended payload extends the span. -/
theorem c1_extractor_greedy_fallback (cs : List Char)
    (h : findSub fenceTag cs = none) :
    extractStructuredData cs =
      (greedyBraceSpan cs).bind (fun s => jsonParse (jsTrim s)) :=
  extractStructuredData_fallback cs h

def c1Witness : List Char := ("see \x7b\"a\":\x7b\"b\":\"x\x7dy\"\x7d\x7d done").toList

/-- Witness for C1 (amended): on a fence-free text whose braces from first
to last delimit one object, extraction succeeds and keeps a nested object
and a brace inside a string literal intact. -/
theorem c1_witness :
    extractStructuredData c1Witness =
      some (Json.obj [("a", Json.obj [("b", Json.str ("x\x7dy").toList)])]) :=
  (c1_extractor_greedy_fallback c1Witness rfl).trans rfl

/-- Counterexample to C7 as stated: the streaming request arms no deadline
at all, so the initial connection is not bounded by the configured
per-attempt timeout that `post` arms. -/
theorem c7_counterexample :
    streamConnectTimeout = none
    ∧ postAttemptTimeout defaultOllamaConfig = some 30000
    ∧ streamConnectTimeout ≠ some defaultOllamaConfig.timeoutMs :=
  ⟨rfl, rfl, by simp [streamConnectTimeout]⟩

/-- C7 (amended): the streaming call has no timeout at all — neither on the
initial connection nor on chunk reads — and a streaming failure terminates
the session through the catch block with a single terminal callback and no
retry (the session performs its one exchange; no retry loop exists). -/
theorem c7_stream_no_timeout_no_retry :
    streamConnectTimeout = none
    ∧ streamChunkReadTimeout = none
    ∧ (∀ (R : Type) (parse : List Char → Option R),
        streamSession parse .fail = { emitted := [], doneCalls := 1 }) :=
  ⟨rfl, rfl, fun _ _ => rfl⟩

/-- Counterexample to C9 as stated: the input `navigate.com` contains the
navigation verb `navigate`, yet it is not left unchanged apart from
trimming — the bare-domain rewrite still prefixes a scheme. -/
theorem c9_counterexample :
    hasNavVerb (jsTrim ("navigate.com").toList) = true
    ∧ preprocessQuery ("navigate.com").toList = ("https://navigate.com").toList
    ∧ preprocessQuery ("navigate.com").toList ≠ ("navigate.com").toList := by
  refine ⟨rfl, rfl, ?_⟩
  decide

/-- C9 (amended): `preprocessQuery` trims every input (its result depends
only on the trimmed input); `example.com` normalizes to
`Navigate to https://example.com`; and an input that mentions a navigation
verb is never given the `Navigate to` prefix — if it moreover does not
match the bare-domain pattern it is returned unchanged apart from
trimming. -/
theorem c9_preprocess (q9 : List Char) :
    preprocessQuery q9 = preprocessQuery (jsTrim q9)
    ∧ preprocessQuery ("example.com").toList = ("Navigate to https://example.com").toList
    ∧ (hasNavVerb (jsTrim q9) = true → bareDomain (jsTrim q9) = false →
        preprocessQuery q9 = jsTrim q9) := by
  refine ⟨?_, rfl, ?_⟩
  · simp only [preprocessQuery, jsTrim_idem]
  · intro h1 h2
    simp [preprocessQuery, h1, h2]

/-- Witness for C9 (amended) at a concrete query containing a navigation
verb and whitespace padding. -/
theorem c9_witness :
    preprocessQuery (" please navigate to example.com  ").toList
      = jsTrim (" please navigate to example.com  ").toList :=
  (c9_preprocess (" please navigate to example.com  ").toList).2.2
    (by decide) (by decide)

/-- Byte encoding of an ASCII text. -/
def asciiBytes (s : String) : List Nat := s.toList.map Char.toNat

def c2Payload : List Nat :=
  asciiBytes "\x7b\"r\":\"" ++ [195, 169] ++ asciiBytes "\",\"done\":true\x7d\n"

def c2Record : Json :=
  Json.obj [("r", Json.str [Char.ofNat 233]), ("done", Json.bool true)]

def c2SplitWhole : List (List Nat) := [c2Payload]

/-- The same payload split in the middle of the two-byte character. -/
def c2SplitMid : List (List Nat) :=
  [asciiBytes "\x7b\"r\":\"" ++ [195], 169 :: asciiBytes "\",\"done\":true\x7d\n"]

/-- C2 evaluated at a failing input: the session opened by `stream` never
enters its read loop (the guard `!reader.closed` is always false, since
`reader.closed` is a Promise object and objects are truthy), so it emits no
record at all for this one-record payload; the loop body itself, as the
repository's mocked unit test runs it, would deliver the record and does so
identically for the unsplit payload and for a split through the middle of a
two-byte character. -/
theorem c2_stream_emits_nothing :
    streamSession jsonParse (.ok c2SplitWhole) = { emitted := [], doneCalls := 0 }
    ∧ streamBodyRun jsonParse c2SplitWhole = [c2Record]
    ∧ streamBodyRun jsonParse c2SplitMid = [c2Record] := ⟨rfl, rfl, rfl⟩

def c3Payload : List Nat := asciiBytes "\x7b\"done\":true\x7d\n"

/-- C3 evaluated at a failing input: a session whose fetch succeeds and
whose byte stream completes normally fires `onDone` zero times — not
exactly once — because the read loop holding the `onDone()` call is never
entered; only the catch path (fetch failure) fires it once. -/
theorem c3_onDone_zero_on_success :
    streamSession jsonParse (.ok [c3Payload]) = { emitted := [], doneCalls := 0 }
    ∧ streamSession jsonParse .fail = { emitted := ([] : List Json), doneCalls := 1 } :=
  ⟨rfl, rfl⟩

def c5Chunks : List (List Nat) :=
  [asciiBytes "\x7b\"done\":false\x7d\n", asciiBytes "oops\n\x7b\"done\":true\x7d\n"]

def c5ResidueBad : List (List Nat) := [asciiBytes "\x7b\"done\":false\x7d\nnot json"]

def c5ResidueGood : List (List Nat) := [asciiBytes "\x7b\"a\":1\x7d"]

/-- C5 evaluated at a failing input: the loop body's line handling would
skip the malformed line `oops` and deliver the well-formed records before
and after it, and would apply the same discard-on-failure rule to the final
residue (an unparseable residue is dropped, a parseable one is delivered);
but the actual session, whose read loop is never entered, delivers none of
them. -/
theorem c5_malformed_line_skipped :
    streamBodyRun jsonParse c5Chunks =
      [Json.obj [("done", Json.bool false)], Json.obj [("done", Json.bool true)]]
    ∧ streamBodyRun jsonParse c5ResidueBad = [Json.obj [("done", Json.bool false)]]
    ∧ streamBodyRun jsonParse c5ResidueGood = [Json.obj [("a", Json.num 1)]]
    ∧ streamSession jsonParse (.ok c5Chunks) = { emitted := [], doneCalls := 0 } :=
  ⟨rfl, rfl, rfl, rfl⟩
